import Mathlib

/-!
# rlox treewalk front end: shallow embedding

A shallow embedding of the rlox treewalk interpreter (lexer, parser,
evaluator) with theorems checking the natural-language specification
against the code.

Conventions of the embedding:
* Rust `f64` number payloads are modelled as `ℚ`.  Every numeral appearing
  in the checked properties (3, 7, 48, 6, 12, 12.5, 5, 297, 0) is exactly
  representable in binary64, and the evaluator performs no floating-point
  arithmetic (its binary dispatch returns `Nil` for every operator), so no
  rounding behaviour is lost by this choice.
* A Rust panic (failed `Vec`/`str` index, `expect`, `unwrap`, explicit
  `panic!`) is modelled as `none` of an `Option`-valued function.
* The scanner's `source: String` field is represented by its character
  sequence `source_chars` together with its UTF-8 byte length
  `source_len`; Rust's `String::len` is the byte length, while
  `source_chars[i]` indexes characters.  Rust's `str::get(a..b)` (a byte
  range, `None` off a character boundary) is modelled by `sliceBytes`.
* Loops are written with an explicit fuel argument; the driver passes
  `source_len + 1`, which dominates the number of iterations since every
  iteration advances `current` by at least one.  Fuel exhaustion returns
  `none`, like a panic; no theorem below depends on distinguishing the two.
-/

namespace Rlox

/-! ## Token model (src/treewalk/src/lexer.rs) -/

/-- `TokenType` from lexer.rs. -/
inductive TokenType where
  | LeftParen | RightParen | LeftBrace | RightBrace | Comma | Dot
  | Minus | Plus | Semicolon | Slash | Star
  | Bang | BangEqual | Equal | EqualEqual
  | Greater | GreaterEqual | Less | LessEqual
  | Identifier | String | Number
  | And | Class | Else | False | Fun | For | If | Nil
  | Or | Print | Return | Super | This | True | Var | While
  | Eof
  deriving DecidableEq, Repr

/-- `Literal` from lexer.rs (token payloads); named `TokLiteral` to keep it
apart from the AST's `Literal`. -/
inductive TokLiteral where
  | Number (q : ℚ)
  | String (s : String)
  | Identifier (s : String)
  deriving DecidableEq, Repr

/-- `Token` from lexer.rs. -/
structure Token where
  tok_type : TokenType
  lexeme : String
  literal : Option TokLiteral
  line : Nat
  deriving DecidableEq, Repr

/-- `Token::new`. -/
def Token.new (typ : TokenType) (lexeme : String) (line : Nat) : Token :=
  { tok_type := typ, lexeme := lexeme, literal := none, line := line }

/-- `Token::string_literal`. -/
def Token.string_literal (s : String) (line : Nat) : Token :=
  { tok_type := .String, lexeme := s, literal := some (.String s), line := line }

/-- `Token::number_literal`. -/
def Token.number_literal (val : ℚ) (lex : String) (line : Nat) : Token :=
  { tok_type := .Number, lexeme := lex, literal := some (.Number val), line := line }

/-- `Token::identifier`. -/
def Token.identifier (id : String) (line : Nat) : Token :=
  { tok_type := .Identifier, lexeme := id, literal := some (.Identifier id), line := line }

/-- `Token::eof`. -/
def Token.eof (line : Nat) : Token :=
  { tok_type := .Eof, lexeme := "", literal := none, line := line }

/-- `Token::is_eof`, as called by parser.rs (`tokens[current].is_eof()`). -/
def Token.is_eof (t : Token) : Bool :=
  t.tok_type == .Eof

/-! ## Byte-slice model of Rust `str::get` -/

/-- The characters making up the first `n` UTF-8 bytes of `cs`; `none` when
`n` overruns the text or falls inside a multi-byte character (where Rust's
`str::get` returns `None` and the scanner's `.expect` panics). -/
def takeBytes : List Char → Nat → Option (List Char)
  | _, 0 => some []
  | [], _ + 1 => none
  | c :: cs, n + 1 =>
    if c.utf8Size ≤ n + 1 then (takeBytes cs (n + 1 - c.utf8Size)).map (c :: ·)
    else none

/-- Drop the first `n` UTF-8 bytes of `cs`; `none` off a character
boundary or past the end. -/
def dropBytes : List Char → Nat → Option (List Char)
  | cs, 0 => some cs
  | [], _ + 1 => none
  | c :: cs, n + 1 =>
    if c.utf8Size ≤ n + 1 then dropBytes cs (n + 1 - c.utf8Size)
    else none

/-- Rust `source.get(a..b)` on byte offsets `a`, `b`. -/
def sliceBytes (cs : List Char) (a b : Nat) : Option (List Char) :=
  if a ≤ b then (dropBytes cs a).bind (fun tl => takeBytes tl (b - a)) else none

/-! ## Character classes used by the scanner -/

/-- Rust `char::is_whitespace` (the Unicode White_Space property),
enumerated in full. -/
def isRustWhitespace (c : Char) : Bool :=
  c.toNat = 0x20 || (0x9 ≤ c.toNat && c.toNat ≤ 0xD) ||
  c.toNat = 0x85 || c.toNat = 0xA0 || c.toNat = 0x1680 ||
  (0x2000 ≤ c.toNat && c.toNat ≤ 0x200A) ||
  c.toNat = 0x2028 || c.toNat = 0x2029 || c.toNat = 0x202F ||
  c.toNat = 0x205F || c.toNat = 0x3000

/-- Rust `char::is_alphabetic` (the Unicode Alphabetic property), modelled
on the ASCII letters.  Every character appearing in a theorem below is
either ASCII or `'¿'` (U+00BF, not alphabetic in Unicode either), so the
model agrees with Rust on all inputs used. -/
def isRustAlphabetic (c : Char) : Bool :=
  (0x41 ≤ c.toNat && c.toNat ≤ 0x5A) || (0x61 ≤ c.toNat && c.toNat ≤ 0x7A)

/-! ## Number parsing -/

/-- Value of a digit string, most significant first; `none` on a non-digit. -/
def digitsValAux : Nat → List Char → Option Nat
  | acc, [] => some acc
  | acc, c :: cs =>
    if c.isDigit then digitsValAux (10 * acc + (c.toNat - 48)) cs else none

def digitsVal (cs : List Char) : Option Nat := digitsValAux 0 cs

/-- Models `str::parse::<f64>()` on the decimal forms the scanner can hand
it: one or more digits, optionally followed by `.` and zero or more digits
(Rust parses `"12."` as `12.0`).  The value is the exact rational; on any
other content the Rust `unwrap` panics, modelled as `none`. -/
def parseF64 (text : String) : Option ℚ :=
  let cs := text.data
  let intPart := cs.takeWhile (fun c => c ≠ '.')
  let rest := cs.dropWhile (fun c => c ≠ '.')
  if intPart = [] then none
  else
    match digitsVal intPart with
    | none => none
    | some n =>
      match rest with
      | [] => some (n : ℚ)
      | _ :: frac =>
        match digitsVal frac with
        | none => none
        | some m => some ((n : ℚ) + (m : ℚ) / ((10 : ℚ) ^ frac.length))

/-! ## Scanner (src/treewalk/src/lexer.rs) -/

/-- `Scanner::build_reserved_word_map`, as a lookup function. -/
def build_reserved_word_map : String → Option TokenType
  | "and" => some .And
  | "class" => some .Class
  | "else" => some .Else
  | "false" => some .False
  | "fun" => some .Fun
  | "for" => some .For
  | "if" => some .If
  | "nil" => some .Nil
  | "or" => some .Or
  | "print" => some .Print
  | "return" => some .Return
  | "super" => some .Super
  | "this" => some .This
  | "true" => some .True
  | "var" => some .Var
  | "while" => some .While
  | _ => none

/-- `Scanner` state.  `source: String` is represented by `source_chars`
(Rust's `source_chars: Vec<char>`) plus `source_len`, the UTF-8 byte
length that Rust's `self.source.len()` returns. -/
structure Scanner where
  source_chars : List Char
  source_len : Nat
  start : Nat
  current : Nat
  line : Nat
  tokens : List Token
  had_error : Bool
  deriving DecidableEq, Repr

/-- `Scanner::new`. -/
def Scanner.new (source : String) : Scanner :=
  { source_chars := source.data
    source_len := source.utf8ByteSize
    start := 0
    current := 0
    line := 1
    tokens := []
    had_error := false }

/-- `Scanner::is_at_end`: compares the cursor against the *byte* length. -/
def Scanner.is_at_end (s : Scanner) : Bool :=
  s.source_len ≤ s.current

/-- `Scanner::advance`: `source_chars[current]` then `current += 1`;
`none` models the out-of-bounds index panic. -/
def Scanner.advance (s : Scanner) : Option (Char × Scanner) :=
  match s.source_chars[s.current]? with
  | none => none
  | some c => some (c, { s with current := s.current + 1 })

/-- `Scanner::peek`: `some none` at end of input, `none` on the
out-of-bounds index panic (possible when byte length exceeds char count). -/
def Scanner.peek (s : Scanner) : Option (Option Char) :=
  if s.is_at_end then some none
  else
    match s.source_chars[s.current]? with
    | none => none
    | some c => some (some c)

/-- `Scanner::current_lexeme`: `source.get(start..current)` with `.expect`. -/
def Scanner.current_lexeme (s : Scanner) : Option String :=
  (sliceBytes s.source_chars s.start s.current).map String.mk

/-- `Scanner::add_token`. -/
def Scanner.add_token (s : Scanner) (typ : TokenType) : Option Scanner :=
  (sliceBytes s.source_chars s.start s.current).map fun lex =>
    { s with tokens := s.tokens ++ [Token.new typ (String.mk lex) s.line] }

/-- `Scanner::error`: sets the flag; the console message is dropped. -/
def Scanner.error (s : Scanner) : Scanner :=
  { s with had_error := true }

/-- `Scanner::match_next`. -/
def Scanner.match_next (s : Scanner) (c : Char) : Option (Bool × Scanner) :=
  if s.is_at_end then some (false, s)
  else
    match s.source_chars[s.current]? with
    | none => none
    | some d =>
      if d ≠ c then some (false, s)
      else some (true, { s with current := s.current + 1 })

/-- `Scanner::add_alternatives`. -/
def Scanner.add_alternatives (s : Scanner) (next : Char)
    (typ_match typ_not_match : TokenType) : Option Scanner :=
  (s.match_next next).bind fun r =>
    r.2.add_token (if r.1 then typ_match else typ_not_match)

/-- The `while let Some(c) = self.peek()` comment-skipping loop inside
`Scanner::comment_or_slash`. -/
def Scanner.comment_loop : Nat → Scanner → Option Scanner
  | 0, _ => none
  | fuel + 1, s =>
    match s.peek with
    | none => none
    | some none => some s
    | some (some c) =>
      if c = '\n' then some s
      else
        match s.advance with
        | none => none
        | some (_, s1) => Scanner.comment_loop fuel s1

/-- `Scanner::comment_or_slash`. -/
def Scanner.comment_or_slash (s : Scanner) (fuel : Nat) : Option Scanner :=
  (s.match_next '/').bind fun r =>
    if r.1 then Scanner.comment_loop fuel r.2
    else r.2.add_token .Slash

/-- `Scanner::process_whitespace`. -/
def Scanner.process_whitespace (s : Scanner) (c : Char) : Scanner :=
  if c = '\n' then { s with line := s.line + 1 } else s

/-- The scanning loop of `Scanner::string`: run to the closing quote or the
end of input, counting newlines. -/
def Scanner.string_loop : Nat → Scanner → Option Scanner
  | 0, _ => none
  | fuel + 1, s =>
    match s.peek with
    | none => none
    | some none => some s
    | some (some c) =>
      if c = '"' then some s
      else
        let s1 := if c = '\n' then { s with line := s.line + 1 } else s
        match s1.advance with
        | none => none
        | some (_, s2) => Scanner.string_loop fuel s2

/-- `Scanner::string`: on an unterminated literal, set the error flag and
emit nothing; otherwise consume the closing quote and push a String token
whose payload is `source.get(start+1..current-1)`. -/
def Scanner.string (s : Scanner) (fuel : Nat) : Option Scanner :=
  (Scanner.string_loop fuel s).bind fun s1 =>
    if s1.is_at_end then some s1.error
    else
      match s1.advance with
      | none => none
      | some (_, s2) =>
        match sliceBytes s2.source_chars (s2.start + 1) (s2.current - 1) with
        | none => none
        | some v =>
          some { s2 with
                  tokens := s2.tokens ++ [Token.string_literal (String.mk v) s2.line] }

/-- `Scanner::advance_digits`. -/
def Scanner.advance_digits : Nat → Scanner → Option Scanner
  | 0, _ => none
  | fuel + 1, s =>
    match s.peek with
    | none => none
    | some none => some s
    | some (some c) =>
      if c.isDigit then
        match s.advance with
        | none => none
        | some (_, s1) => Scanner.advance_digits fuel s1
      else some s

/-- `Scanner::peek_next_is_digit`: note that the source tests byte offset
`current + 2` and reads `source_chars[current + 2]` — two characters past
the dot under inspection, not one. -/
def Scanner.peek_next_is_digit (s : Scanner) : Option Bool :=
  if s.source_len ≤ s.current + 2 then some false
  else
    match s.source_chars[s.current + 2]? with
    | none => none
    | some c => some c.isDigit

/-- The `if let Some(c) = self.peek()` block of `Scanner::number`: consume
the dot and the fractional digits when `peek` is a dot and
`peek_next_is_digit` holds. -/
def Scanner.number_dot (s1 : Scanner) (fuel : Nat) : Option Scanner :=
  match s1.peek with
  | none => none
  | some none => some s1
  | some (some c) =>
    if c = '.' then
      match s1.peek_next_is_digit with
      | none => none
      | some true =>
        match s1.advance with
        | none => none
        | some (_, s2) => Scanner.advance_digits fuel s2
      | some false => some s1
    else some s1

/-- `Scanner::number`. -/
def Scanner.number (s : Scanner) (fuel : Nat) : Option Scanner :=
  (Scanner.advance_digits fuel s).bind fun s1 =>
    (s1.number_dot fuel).bind fun s3 =>
      match s3.current_lexeme with
      | none => none
      | some str_value =>
        match parseF64 str_value with
        | none => none
        | some val =>
          some { s3 with
                  tokens := s3.tokens ++ [Token.number_literal val str_value s3.line] }

/-- The alphabetic-run loop of `Scanner::identifier`. -/
def Scanner.ident_loop : Nat → Scanner → Option Scanner
  | 0, _ => none
  | fuel + 1, s =>
    match s.peek with
    | none => none
    | some none => some s
    | some (some c) =>
      if isRustAlphabetic c then
        match s.advance with
        | none => none
        | some (_, s1) => Scanner.ident_loop fuel s1
      else some s

/-- `Scanner::identifier`. -/
def Scanner.identifier (s : Scanner) (fuel : Nat) : Option Scanner :=
  (Scanner.ident_loop fuel s).bind fun s1 =>
    match s1.current_lexeme with
    | none => none
    | some ident =>
      match build_reserved_word_map ident with
      | none =>
        some { s1 with tokens := s1.tokens ++ [Token.identifier ident s1.line] }
      | some toktyp => s1.add_token toktyp

/-- `Scanner::scan_token`. -/
def Scanner.scan_token (s : Scanner) (fuel : Nat) : Option Scanner :=
  match s.advance with
  | none => none
  | some (c, s1) =>
    match c with
    | '(' => s1.add_token .LeftParen
    | ')' => s1.add_token .RightParen
    | '{' => s1.add_token .LeftBrace
    | '}' => s1.add_token .RightBrace
    | ',' => s1.add_token .Comma
    | '.' => s1.add_token .Dot
    | '-' => s1.add_token .Minus
    | '+' => s1.add_token .Plus
    | ';' => s1.add_token .Semicolon
    | '/' => s1.comment_or_slash fuel
    | '*' => s1.add_token .Star
    | '!' => s1.add_alternatives '=' .BangEqual .Bang
    | '=' => s1.add_alternatives '=' .EqualEqual .Equal
    | '>' => s1.add_alternatives '=' .GreaterEqual .Greater
    | '<' => s1.add_alternatives '=' .LessEqual .Less
    | '"' => s1.string fuel
    | ch =>
      if ch.isDigit then s1.number fuel
      else if isRustWhitespace ch then some (s1.process_whitespace ch)
      else if isRustAlphabetic ch then s1.identifier fuel
      else some s1.error

/-- The `while !self.is_at_end()` loop of `Scanner::scan_tokens`:
`start := current`, then `scan_token`. -/
def Scanner.scan_loop : Nat → Scanner → Option Scanner
  | 0, _ => none
  | fuel + 1, s =>
    if s.is_at_end then some s
    else
      match ({ s with start := s.current } : Scanner).scan_token (s.source_len + 1) with
      | none => none
      | some s1 => Scanner.scan_loop fuel s1

/-- `Scanner::scan_tokens`: run the loop, then push one Eof token. -/
def Scanner.scan_tokens (s : Scanner) : Option Scanner :=
  (Scanner.scan_loop (s.source_len + 1) s).map fun s1 =>
    { s1 with tokens := s1.tokens ++ [Token.eof s1.line] }

/-- Scanning a source string, as main.rs does: build a `Scanner`, run
`scan_tokens`, read off the token sequence and the error flag.  `none`
models a panic during scanning. -/
def scanSource (source : String) : Option (List Token × Bool) :=
  ((Scanner.new source).scan_tokens).map fun s => (s.tokens, s.had_error)

/-- The token-kind sequence of a scan. -/
def scanKinds (source : String) : Option (List TokenType) :=
  (scanSource source).map fun r => r.1.map Token.tok_type

/-! ## AST model (src/treewalk/src/ast.rs) -/

/-- `Literal` from ast.rs. -/
inductive Literal where
  | Number (q : ℚ)
  | String (s : String)
  | True
  | False
  | Nil
  deriving DecidableEq, Repr

/-- `UnOp` from ast.rs. -/
inductive UnOp where
  | Minus
  | Not
  deriving DecidableEq, Repr

/-- `BinOp` from ast.rs. -/
inductive BinOp where
  | Equal | NotEqual
  | Lt | LtEqual | Gt | GtEqual
  | Plus | Minus | Mult | Div
  deriving DecidableEq, Repr

/-- `UnOp::from_token_type`. -/
def UnOp.from_token_type : TokenType → Option UnOp
  | .Minus => some .Minus
  | .Bang => some .Not
  | _ => none

/-- `BinOp::from_token_type`. -/
def BinOp.from_token_type : TokenType → Option BinOp
  | .EqualEqual => some .Equal
  | .BangEqual => some .NotEqual
  | .Less => some .Lt
  | .LessEqual => some .LtEqual
  | .Greater => some .Gt
  | .GreaterEqual => some .GtEqual
  | .Plus => some .Plus
  | .Minus => some .Minus
  | .Slash => some .Div
  | .Star => some .Mult
  | _ => none

/-- `Expr` from ast.rs. -/
inductive Expr where
  | Literal (l : Literal)
  | Unary (op : UnOp) (e : Expr)
  | Binary (op : BinOp) (e1 e2 : Expr)
  | Grouping (e : Expr)
  deriving DecidableEq, Repr

/-- `Expr::number_literal`. -/
def Expr.number_literal (n : ℚ) : Expr := .Literal (.Number n)

/-- `Expr::string_literal`. -/
def Expr.string_literal (s : String) : Expr := .Literal (.String s)

/-- `Expr::true_literal`. -/
def Expr.true_literal : Expr := .Literal .True

/-- `Expr::false_literal`. -/
def Expr.false_literal : Expr := .Literal .False

/-- `Expr::nil_literal`. -/
def Expr.nil_literal : Expr := .Literal .Nil

/-- `Expr::group`. -/
def Expr.group (e : Expr) : Expr := .Grouping e

/-- `Expr::binary`. -/
def Expr.binary (op : BinOp) (e1 e2 : Expr) : Expr := .Binary op e1 e2

/-- `Expr::binary_from_token`; `none` models the `panic!` on a token type
that is not a binary operator. -/
def Expr.binary_from_token (op_tok : TokenType) (e1 e2 : Expr) : Option Expr :=
  match BinOp.from_token_type op_tok with
  | some bop => some (Expr.binary bop e1 e2)
  | none => none

/-- `Expr::unary`. -/
def Expr.unary (op : UnOp) (e : Expr) : Expr := .Unary op e

/-- `Expr::unary_from_token`; `none` models the `panic!`. -/
def Expr.unary_from_token (op_tok : TokenType) (e : Expr) : Option Expr :=
  match UnOp.from_token_type op_tok with
  | some uop => some (Expr.unary uop e)
  | none => none

/-! ## Evaluator (src/treewalk/src/interpreter.rs) -/

/-- `Value` from interpreter.rs. -/
inductive Value where
  | Nil
  | Number (q : ℚ)
  | Boolean (b : Bool)
  | String (s : String)
  deriving DecidableEq, Repr

/-- `eval_literal`. -/
def eval_literal : Literal → Value
  | .Nil => .Nil
  | .True => .Boolean true
  | .False => .Boolean false
  | .Number n => .Number n
  | .String s => .String s

/-- `minus`: negation of a number; `none` models the `panic!` on any
non-numeric value ("Tried to invert sign of a non-numeric value"). -/
def minus : Value → Option Value
  | .Number n => some (.Number (-n))
  | _ => none

/-- `negate`: truthiness; false and nil are falsey, everything else truthy. -/
def negate : Value → Value
  | .Boolean false => .Boolean true
  | .Nil => .Boolean true
  | _ => .Boolean false

/-- `eval_binary` from interpreter.rs: the binary dispatch is a stub that
returns `Value::Nil` for every operator without touching the operand
expressions. -/
def eval_binary (op : BinOp) (_e1 _e2 : Expr) : Option Value :=
  match op with
  | .Plus => some .Nil
  | .Minus => some .Nil
  | .Mult => some .Nil
  | .Div => some .Nil
  | .Gt => some .Nil
  | .GtEqual => some .Nil
  | .Lt => some .Nil
  | .LtEqual => some .Nil
  | .Equal => some .Nil
  | .NotEqual => some .Nil

/-- `eval`.  Rust's mutually recursive helper `eval_unary(op, e)` is inlined
as the inner match on `op` to keep the recursion structural; `eval_unary`
below restates it verbatim and `eval_unary_eq` connects the two. -/
def eval : Expr → Option Value
  | .Literal l => some (eval_literal l)
  | .Grouping e => eval e
  | .Unary op e =>
    match op with
    | .Minus => (eval e).bind minus
    | .Not => (eval e).map negate
  | .Binary op e1 e2 => eval_binary op e1 e2

/-- `eval_unary` from interpreter.rs: `Minus` applies `minus` to the
operand's value, `Not` applies `negate`. -/
def eval_unary (op : UnOp) (e : Expr) : Option Value :=
  match op with
  | .Minus => (eval e).bind minus
  | .Not => (eval e).map negate

/-! ## Parser (src/treewalk/src/parser.rs)

parser.rs reads the token payload through `Token::is_eof` and a `value`
field of `lexer::Value`; in the lexer as present under src/ these are the
`tok_type == Eof` test and the `literal: Option<Literal>` field (the
parser file predates a rename).  The embedding reads `Token.is_eof` and
`Token.literal` accordingly.

Every parsing function takes an explicit fuel argument (first position)
and returns the parsed expression together with the advanced parser
state; `none` models the `panic!` calls (unexpected token in a primary
position, missing `)`, a binary/unary operator token with no
corresponding AST operator) as well as fuel exhaustion, which cannot
occur at the fuel `Parser.parse` supplies. -/

/-- `Parser` state: the scanner's token sequence plus the cursor.  (The
source stores the whole `Scanner`; after `scan_tokens` only its `tokens`
are consulted.) -/
structure Parser where
  tokens : List Token
  current : Nat
  deriving DecidableEq, Repr

/-- `Parser::is_at_end`: cursor past the end, or the current token is Eof. -/
def Parser.is_at_end (p : Parser) : Bool :=
  p.tokens.length ≤ p.current ||
    match p.tokens[p.current]? with
    | some t => t.is_eof
    | none => false

/-- `Parser::peek`: at the end, return the last token (panic — `none` —
when the sequence is empty); otherwise the current token (in bounds
whenever `is_at_end` is false). -/
def Parser.peek (p : Parser) : Option Token :=
  if p.is_at_end then p.tokens.getLast?
  else p.tokens[p.current]?

/-- `Parser::check`.  In the else branch `peek` cannot be `none` (the
cursor is in bounds), so reading `false` there loses nothing. -/
def Parser.check (p : Parser) (typ : TokenType) : Bool :=
  if p.is_at_end then false
  else
    match p.peek with
    | some t => t.tok_type == typ
    | none => false

/-- `Parser::previous`: `tokens[current - 1]`, which panics when
`current = 0` (usize underflow) or the index is out of bounds. -/
def Parser.previous (p : Parser) : Option Token :=
  if p.current = 0 then none else p.tokens[p.current - 1]?

/-- `Parser::advance` (its returned `&Token` is ignored at every call
site, so the embedding returns only the state). -/
def Parser.advance (p : Parser) : Parser :=
  if p.is_at_end then p else { p with current := p.current + 1 }

/-- `Parser::match_token_types`. -/
def Parser.match_token_types (p : Parser) : List TokenType → Bool × Parser
  | [] => (false, p)
  | typ :: rest =>
    if p.check typ then (true, p.advance)
    else p.match_token_types rest

/-- `Parser::consume`: advance past the expected token type or panic. -/
def Parser.consume (p : Parser) (typ : TokenType) : Option Parser :=
  if p.check typ then some p.advance else none

mutual

/-- `Parser::parse_expression`. -/
def parse_expression : Nat → Parser → Option (Expr × Parser)
  | 0, _ => none
  | fuel + 1, p => parse_equality fuel p

/-- `Parser::parse_equality`: parse a comparison, then left-fold
`!=`/`==` operators. -/
def parse_equality : Nat → Parser → Option (Expr × Parser)
  | 0, _ => none
  | fuel + 1, p =>
    match parse_comparison fuel p with
    | none => none
    | some (e, p1) => equality_loop fuel e p1

/-- The `while self.match_token_types(&eq_ops)` loop of `parse_equality`. -/
def equality_loop : Nat → Expr → Parser → Option (Expr × Parser)
  | 0, _, _ => none
  | fuel + 1, e, p =>
    let r := p.match_token_types [.BangEqual, .EqualEqual]
    if r.1 then
      match r.2.previous with
      | none => none
      | some op_tok =>
        match parse_comparison fuel r.2 with
        | none => none
        | some (right, p2) =>
          match Expr.binary_from_token op_tok.tok_type e right with
          | none => none
          | some e2 => equality_loop fuel e2 p2
    else some (e, r.2)

/-- `Parser::parse_comparison`. -/
def parse_comparison : Nat → Parser → Option (Expr × Parser)
  | 0, _ => none
  | fuel + 1, p =>
    match parse_term fuel p with
    | none => none
    | some (e, p1) => comparison_loop fuel e p1

/-- The operator loop of `parse_comparison`. -/
def comparison_loop : Nat → Expr → Parser → Option (Expr × Parser)
  | 0, _, _ => none
  | fuel + 1, e, p =>
    let r := p.match_token_types [.Greater, .GreaterEqual, .Less, .LessEqual]
    if r.1 then
      match r.2.previous with
      | none => none
      | some op_tok =>
        match parse_term fuel r.2 with
        | none => none
        | some (right, p2) =>
          match Expr.binary_from_token op_tok.tok_type e right with
          | none => none
          | some e2 => comparison_loop fuel e2 p2
    else some (e, r.2)

/-- `Parser::parse_term`. -/
def parse_term : Nat → Parser → Option (Expr × Parser)
  | 0, _ => none
  | fuel + 1, p =>
    match parse_factor fuel p with
    | none => none
    | some (e, p1) => term_loop fuel e p1

/-- The operator loop of `parse_term`. -/
def term_loop : Nat → Expr → Parser → Option (Expr × Parser)
  | 0, _, _ => none
  | fuel + 1, e, p =>
    let r := p.match_token_types [.Plus, .Minus]
    if r.1 then
      match r.2.previous with
      | none => none
      | some op_tok =>
        match parse_factor fuel r.2 with
        | none => none
        | some (right, p2) =>
          match Expr.binary_from_token op_tok.tok_type e right with
          | none => none
          | some e2 => term_loop fuel e2 p2
    else some (e, r.2)

/-- `Parser::parse_factor`. -/
def parse_factor : Nat → Parser → Option (Expr × Parser)
  | 0, _ => none
  | fuel + 1, p =>
    match parse_unary fuel p with
    | none => none
    | some (e, p1) => factor_loop fuel e p1

/-- The operator loop of `parse_factor`. -/
def factor_loop : Nat → Expr → Parser → Option (Expr × Parser)
  | 0, _, _ => none
  | fuel + 1, e, p =>
    let r := p.match_token_types [.Slash, .Star]
    if r.1 then
      match r.2.previous with
      | none => none
      | some op_tok =>
        match parse_unary fuel r.2 with
        | none => none
        | some (right, p2) =>
          match Expr.binary_from_token op_tok.tok_type e right with
          | none => none
          | some e2 => factor_loop fuel e2 p2
    else some (e, r.2)

/-- `Parser::parse_unary`: right-recursive on itself, else a primary. -/
def parse_unary : Nat → Parser → Option (Expr × Parser)
  | 0, _ => none
  | fuel + 1, p =>
    let r := p.match_token_types [.Bang, .Minus]
    if r.1 then
      match r.2.previous with
      | none => none
      | some op_tok =>
        match parse_unary fuel r.2 with
        | none => none
        | some (right, p2) =>
          match Expr.unary_from_token op_tok.tok_type right with
          | none => none
          | some e => some (e, p2)
    else parse_primary fuel p

/-- `Parser::parse_primary`. -/
def parse_primary : Nat → Parser → Option (Expr × Parser)
  | 0, _ => none
  | fuel + 1, p =>
    let rf := p.match_token_types [.False]
    if rf.1 then some (Expr.false_literal, rf.2)
    else
      let rt := rf.2.match_token_types [.True]
      if rt.1 then some (Expr.true_literal, rt.2)
      else
        let rn := rt.2.match_token_types [.Nil]
        if rn.1 then some (Expr.nil_literal, rn.2)
        else
          let rl := rn.2.match_token_types [.Number, .String]
          if rl.1 then
            match rl.2.previous with
            | none => none
            | some tok =>
              match tok.literal with
              | some (.Number i) => some (Expr.number_literal i, rl.2)
              | some (.String s) => some (Expr.string_literal s, rl.2)
              | _ => none
          else
            let rp := rl.2.match_token_types [.LeftParen]
            if rp.1 then
              match parse_expression fuel rp.2 with
              | none => none
              | some (e, p2) =>
                match p2.consume .RightParen with
                | none => none
                | some p3 => some (Expr.group e, p3)
            else none

end

/-- `Parser::parse`: scan the source, then parse one expression from the
token sequence (the fuel `8 * (length + 1)` dominates the recursion
depth: every ladder descent or loop iteration either consumes a token or
moves one of at most seven levels down).  Trailing tokens after the first
complete expression are ignored, as in the source. -/
def Parser.parse (source : String) : Option Expr :=
  match scanSource source with
  | none => none
  | some (toks, _) =>
    (parse_expression (8 * (toks.length + 1)) { tokens := toks, current := 0 }).map
      fun r => r.1

/-- No token of the list is an end-of-stream token. -/
def tokensNoEof (ts : List Token) : Prop :=
  ∀ t ∈ ts, t.tok_type ≠ TokenType.Eof

/-- The token sequence the scanner produces for `"3 + 7 * (48 - 6)"`,
stated as a literal so the scanning and parsing stages can be computed
separately in the proofs. -/
def toksAddMul : List Token :=
  [Token.number_literal 3 "3" 1, Token.new .Plus "+" 1,
   Token.number_literal 7 "7" 1, Token.new .Star "*" 1,
   Token.new .LeftParen "(" 1, Token.number_literal 48 "48" 1,
   Token.new .Minus "-" 1, Token.number_literal 6 "6" 1,
   Token.new .RightParen ")" 1, Token.eof 1]

theorem eval_unary_eq (op : UnOp) (e : Expr) :
    eval (.Unary op e) = eval_unary op e := by
  cases op <;> rfl

/-- C9: grouping is transparent to evaluation: for every expression `e`,
`eval (Grouping e)` is exactly `eval e`, returning the inner result
unchanged and failing exactly when evaluating `e` fails. -/
theorem grouping_transparent (e : Expr) :
    eval (.Grouping e) = eval e := rfl

/-- C10: the evaluator's binary dispatch is a stub: for every one of the
ten binary operators and all operand expressions, evaluating
`Binary(op, e1, e2)` yields `Nil` without evaluating either operand, so no
runtime type error is ever raised from a `Binary` node — even when the
operands on their own would fail. -/
theorem binary_dispatch_stub (op : BinOp) (e1 e2 : Expr) :
    eval (.Binary op e1 e2) = some Value.Nil := by
  cases op <;> rfl

/-- C5: unary `Not` implements truthiness: `negate v` is `Boolean true`
exactly when `v` is `Boolean false` or `Nil`, and `Boolean false` for every
other value; in particular `evaluate(Not, False) = true`,
`evaluate(Not, Nil) = true`, `evaluate(Not, Number 0) = false`, and
`evaluate(Not, String "") = false`. -/
theorem not_truthiness (v : Value) :
    negate v = (if v = .Boolean false ∨ v = .Nil then .Boolean true else .Boolean false)
    ∧ eval (.Unary .Not Expr.false_literal) = some (.Boolean true)
    ∧ eval (.Unary .Not Expr.nil_literal) = some (.Boolean true)
    ∧ eval (.Unary .Not (Expr.number_literal 0)) = some (.Boolean false)
    ∧ eval (.Unary .Not (Expr.string_literal "")) = some (.Boolean false) := by
  refine ⟨?_, rfl, rfl, rfl, rfl⟩
  rcases v with _ | q | b | s
  · decide
  · simp [negate]
  · cases b <;> decide
  · simp [negate]

/-- C1: parsing `"3 + 7 * (48 - 6)"` yields exactly the claimed AST
`Binary(Add, 3, Binary(Multiply, 7, Grouping(Binary(Subtract, 48, 6))))`
(precedence, associativity and grouping as specified) — but evaluating
that AST yields `Nil`, not `Number 297`, because the evaluator's binary
dispatch is a stub. -/
theorem parse_precedence_eval_stub :
    Parser.parse "3 + 7 * (48 - 6)"
      = some (Expr.binary .Plus (Expr.number_literal 3)
          (Expr.binary .Mult (Expr.number_literal 7)
            (Expr.group (Expr.binary .Minus (Expr.number_literal 48)
              (Expr.number_literal 6)))))
    ∧ eval (Expr.binary .Plus (Expr.number_literal 3)
          (Expr.binary .Mult (Expr.number_literal 7)
            (Expr.group (Expr.binary .Minus (Expr.number_literal 48)
              (Expr.number_literal 6)))))
        = some Value.Nil
    ∧ some Value.Nil ≠ some (Value.Number 297) := by
  refine ⟨?_, rfl, by decide⟩
  have hscan : scanSource "3 + 7 * (48 - 6)" = some (toksAddMul, false) := by decide
  unfold Parser.parse
  rw [hscan]
  show (parse_expression (8 * (toksAddMul.length + 1))
          { tokens := toksAddMul, current := 0 }).map (fun r => r.1) = _
  have hfuel : 8 * (toksAddMul.length + 1) = 88 := by decide
  rw [hfuel]
  decide

/-- C4: what the code actually does on the claim's equality inputs: the
binary dispatch being a stub, `Equal` on `(Nil, Nil)` and on
`(Number 0, String "0")` both evaluate to `Nil` — not to the claimed
`Boolean true` / `Boolean false`. -/
theorem equal_stub_returns_nil :
    eval (.Binary .Equal Expr.nil_literal Expr.nil_literal) = some Value.Nil
    ∧ eval (.Binary .Equal (Expr.number_literal 0) (Expr.string_literal "0"))
        = some Value.Nil
    ∧ some Value.Nil ≠ some (Value.Boolean true)
    ∧ some Value.Nil ≠ some (Value.Boolean false) := by
  exact ⟨rfl, rfl, by decide, by decide⟩

/-! ## Token-stream discipline lemmas -/

theorem advance_state (s : Scanner) (c : Char) (s1 : Scanner)
    (h : s.advance = some (c, s1)) :
    s1 = { s with current := s.current + 1 } := by
  unfold Scanner.advance at h
  cases hg : s.source_chars[s.current]? with
  | none => rw [hg] at h; exact absurd h (by simp)
  | some d =>
    rw [hg] at h
    simp only [Option.some.injEq, Prod.mk.injEq] at h
    exact h.2.symm

theorem tokensNoEof_push (ts : List Token) (t : Token)
    (hts : tokensNoEof ts) (ht : t.tok_type ≠ .Eof) :
    tokensNoEof (ts ++ [t]) := by
  intro u hu
  rcases List.mem_append.mp hu with h | h
  · exact hts u h
  · rcases List.mem_singleton.mp h with rfl
    exact ht

theorem add_token_noEof (s : Scanner) (typ : TokenType) (s1 : Scanner)
    (h : s.add_token typ = some s1) (hne : typ ≠ .Eof)
    (hs : tokensNoEof s.tokens) : tokensNoEof s1.tokens := by
  unfold Scanner.add_token at h
  cases hsl : sliceBytes s.source_chars s.start s.current with
  | none => rw [hsl] at h; exact absurd h (by simp)
  | some lex =>
    rw [hsl] at h
    injection h with h
    subst h
    exact tokensNoEof_push _ _ hs hne

theorem match_next_tokens (s : Scanner) (c : Char) (r : Bool × Scanner)
    (h : s.match_next c = some r) : r.2.tokens = s.tokens := by
  unfold Scanner.match_next at h
  split at h
  · injection h with h; subst h; rfl
  · split at h
    · exact absurd h (by simp)
    · split at h
      · injection h with h; subst h; rfl
      · injection h with h; subst h; rfl

theorem add_alternatives_noEof (s : Scanner) (next : Char)
    (t1 t2 : TokenType) (s1 : Scanner)
    (h : s.add_alternatives next t1 t2 = some s1)
    (h1 : t1 ≠ .Eof) (h2 : t2 ≠ .Eof)
    (hs : tokensNoEof s.tokens) : tokensNoEof s1.tokens := by
  unfold Scanner.add_alternatives at h
  cases hm : s.match_next next with
  | none => rw [hm] at h; exact absurd h (by simp)
  | some r =>
    rw [hm] at h
    have h' : r.2.add_token (if r.1 then t1 else t2) = some s1 := h
    have hr : tokensNoEof r.2.tokens := by
      rw [match_next_tokens s next r hm]; exact hs
    by_cases hb : r.1 = true
    · rw [if_pos hb] at h'
      exact add_token_noEof _ _ _ h' h1 hr
    · rw [if_neg hb] at h'
      exact add_token_noEof _ _ _ h' h2 hr

theorem comment_loop_tokens (fuel : Nat) :
    ∀ s s1, Scanner.comment_loop fuel s = some s1 → s1.tokens = s.tokens := by
  induction fuel with
  | zero => intro s s1 h; exact absurd h (by simp [Scanner.comment_loop])
  | succ n ih =>
    intro s s1 h
    unfold Scanner.comment_loop at h
    split at h
    · exact absurd h (by simp)
    · injection h with h; subst h; rfl
    · split at h
      · injection h with h; subst h; rfl
      · split at h
        · exact absurd h (by simp)
        · rename_i c hnl fst s2 ha
          rw [ih s2 s1 h, advance_state s fst s2 ha]

theorem string_loop_tokens (fuel : Nat) :
    ∀ s s1, Scanner.string_loop fuel s = some s1 → s1.tokens = s.tokens := by
  induction fuel with
  | zero => intro s s1 h; exact absurd h (by simp [Scanner.string_loop])
  | succ n ih =>
    intro s s1 h
    unfold Scanner.string_loop at h
    split at h
    · exact absurd h (by simp)
    · injection h with h; subst h; rfl
    · split at h
      · injection h with h; subst h; rfl
      · rename_i c heq hq
        simp only at h
        by_cases hn : c = '\n'
        · rw [if_pos hn] at h
          split at h
          · exact absurd h (by simp)
          · rename_i fst s2 ha
            rw [ih s2 s1 h, advance_state _ fst s2 ha]
        · rw [if_neg hn] at h
          split at h
          · exact absurd h (by simp)
          · rename_i fst s2 ha
            rw [ih s2 s1 h, advance_state _ fst s2 ha]

theorem advance_digits_tokens (fuel : Nat) :
    ∀ s s1, Scanner.advance_digits fuel s = some s1 → s1.tokens = s.tokens := by
  induction fuel with
  | zero => intro s s1 h; exact absurd h (by simp [Scanner.advance_digits])
  | succ n ih =>
    intro s s1 h
    unfold Scanner.advance_digits at h
    split at h
    · exact absurd h (by simp)
    · injection h with h; subst h; rfl
    · split at h
      · split at h
        · exact absurd h (by simp)
        · rename_i c hdig fst s2 ha
          rw [ih s2 s1 h, advance_state s fst s2 ha]
      · injection h with h; subst h; rfl

theorem ident_loop_tokens (fuel : Nat) :
    ∀ s s1, Scanner.ident_loop fuel s = some s1 → s1.tokens = s.tokens := by
  induction fuel with
  | zero => intro s s1 h; exact absurd h (by simp [Scanner.ident_loop])
  | succ n ih =>
    intro s s1 h
    unfold Scanner.ident_loop at h
    split at h
    · exact absurd h (by simp)
    · injection h with h; subst h; rfl
    · split at h
      · split at h
        · exact absurd h (by simp)
        · rename_i c halpha fst s2 ha
          rw [ih s2 s1 h, advance_state s fst s2 ha]
      · injection h with h; subst h; rfl

theorem reserved_ne_eof (w : String) (t : TokenType)
    (h : build_reserved_word_map w = some t) : t ≠ .Eof := by
  unfold build_reserved_word_map at h
  split at h
  all_goals first
    | (injection h with h; subst h; decide)
    | exact absurd h (by simp)

theorem comment_or_slash_noEof (s : Scanner) (fuel : Nat) (s1 : Scanner)
    (h : s.comment_or_slash fuel = some s1)
    (hs : tokensNoEof s.tokens) : tokensNoEof s1.tokens := by
  unfold Scanner.comment_or_slash at h
  cases hm : s.match_next '/' with
  | none => rw [hm] at h; exact absurd h (by simp)
  | some r =>
    rw [hm] at h
    have h' : (if r.1 then Scanner.comment_loop fuel r.2
               else r.2.add_token .Slash) = some s1 := h
    have hr : tokensNoEof r.2.tokens := by
      rw [match_next_tokens s _ r hm]; exact hs
    by_cases hb : r.1 = true
    · rw [if_pos hb] at h'
      rw [comment_loop_tokens fuel r.2 s1 h']
      exact hr
    · rw [if_neg hb] at h'
      exact add_token_noEof _ _ _ h' (by decide) hr

theorem string_noEof (s : Scanner) (fuel : Nat) (s1 : Scanner)
    (h : s.string fuel = some s1) (hs : tokensNoEof s.tokens) :
    tokensNoEof s1.tokens := by
  unfold Scanner.string at h
  cases hl : Scanner.string_loop fuel s with
  | none => rw [hl] at h; exact absurd h (by simp)
  | some sb =>
    rw [hl] at h
    simp only [Option.some_bind] at h
    have hsb : tokensNoEof sb.tokens := by
      rw [string_loop_tokens fuel s sb hl]; exact hs
    by_cases he : sb.is_at_end = true
    · rw [if_pos he] at h
      injection h with h; subst h
      exact hsb
    · rw [if_neg he] at h
      split at h
      · exact absurd h (by simp)
      · rename_i fst s2 ha
        split at h
        · exact absurd h (by simp)
        · rename_i v hv
          injection h with h; subst h
          refine tokensNoEof_push _ _ ?_ (by intro hcon; exact TokenType.noConfusion hcon)
          rw [advance_state sb fst s2 ha]
          exact hsb

theorem number_dot_tokens (s : Scanner) (fuel : Nat) (s1 : Scanner)
    (h : s.number_dot fuel = some s1) : s1.tokens = s.tokens := by
  unfold Scanner.number_dot at h
  split at h
  · exact absurd h (by simp)
  · injection h with h; subst h; rfl
  · split at h
    · split at h
      · exact absurd h (by simp)
      · split at h
        · exact absurd h (by simp)
        · rename_i fst s2 ha
          rw [advance_digits_tokens fuel s2 s1 h, advance_state s fst s2 ha]
      · injection h with h; subst h; rfl
    · injection h with h; subst h; rfl

theorem number_noEof (s : Scanner) (fuel : Nat) (s1 : Scanner)
    (h : s.number fuel = some s1) (hs : tokensNoEof s.tokens) :
    tokensNoEof s1.tokens := by
  unfold Scanner.number at h
  cases had : Scanner.advance_digits fuel s with
  | none => rw [had] at h; exact absurd h (by simp)
  | some sa =>
    rw [had] at h
    simp only [Option.some_bind] at h
    have hsa : tokensNoEof sa.tokens := by
      rw [advance_digits_tokens fuel s sa had]; exact hs
    cases hdot : sa.number_dot fuel with
    | none => rw [hdot] at h; exact absurd h (by simp)
    | some s3 =>
      rw [hdot] at h
      simp only [Option.some_bind] at h
      have hs3 : tokensNoEof s3.tokens := by
        rw [number_dot_tokens sa fuel s3 hdot]; exact hsa
      split at h
      · exact absurd h (by simp)
      · split at h
        · exact absurd h (by simp)
        · injection h with h; subst h
          exact tokensNoEof_push _ _ hs3 (by intro hcon; exact TokenType.noConfusion hcon)

theorem identifier_noEof (s : Scanner) (fuel : Nat) (s1 : Scanner)
    (h : s.identifier fuel = some s1) (hs : tokensNoEof s.tokens) :
    tokensNoEof s1.tokens := by
  unfold Scanner.identifier at h
  cases hil : Scanner.ident_loop fuel s with
  | none => rw [hil] at h; exact absurd h (by simp)
  | some si =>
    rw [hil] at h
    simp only [Option.some_bind] at h
    have hsi : tokensNoEof si.tokens := by
      rw [ident_loop_tokens fuel s si hil]; exact hs
    split at h
    · exact absurd h (by simp)
    · split at h
      · injection h with h; subst h
        exact tokensNoEof_push _ _ hsi (by intro hcon; exact TokenType.noConfusion hcon)
      · rename_i ident hlex toktyp hres
        exact add_token_noEof _ _ _ h (reserved_ne_eof _ _ hres) hsi

theorem scan_token_noEof (s : Scanner) (fuel : Nat) (s1 : Scanner)
    (h : s.scan_token fuel = some s1) (hs : tokensNoEof s.tokens) :
    tokensNoEof s1.tokens := by
  unfold Scanner.scan_token at h
  split at h
  · exact absurd h (by simp)
  · rename_i c sa ha
    have hsa : tokensNoEof sa.tokens := by
      rw [advance_state s c sa ha]; exact hs
    split at h
    · exact add_token_noEof _ _ _ h (by decide) hsa
    · exact add_token_noEof _ _ _ h (by decide) hsa
    · exact add_token_noEof _ _ _ h (by decide) hsa
    · exact add_token_noEof _ _ _ h (by decide) hsa
    · exact add_token_noEof _ _ _ h (by decide) hsa
    · exact add_token_noEof _ _ _ h (by decide) hsa
    · exact add_token_noEof _ _ _ h (by decide) hsa
    · exact add_token_noEof _ _ _ h (by decide) hsa
    · exact add_token_noEof _ _ _ h (by decide) hsa
    · exact comment_or_slash_noEof _ _ _ h hsa
    · exact add_token_noEof _ _ _ h (by decide) hsa
    · exact add_alternatives_noEof _ _ _ _ _ h (by decide) (by decide) hsa
    · exact add_alternatives_noEof _ _ _ _ _ h (by decide) (by decide) hsa
    · exact add_alternatives_noEof _ _ _ _ _ h (by decide) (by decide) hsa
    · exact add_alternatives_noEof _ _ _ _ _ h (by decide) (by decide) hsa
    · exact string_noEof _ _ _ h hsa
    · split_ifs at h with h1 h2 h3
      · exact number_noEof _ _ _ h hsa
      · injection h with h; subst h
        unfold Scanner.process_whitespace
        split
        · exact hsa
        · exact hsa
      · exact identifier_noEof _ _ _ h hsa
      · injection h with h; subst h
        exact hsa

theorem scan_loop_noEof (fuel : Nat) :
    ∀ s s1, Scanner.scan_loop fuel s = some s1 → tokensNoEof s.tokens →
      tokensNoEof s1.tokens := by
  induction fuel with
  | zero => intro s s1 h _; exact absurd h (by simp [Scanner.scan_loop])
  | succ n ih =>
    intro s s1 h hs
    unfold Scanner.scan_loop at h
    by_cases he : s.is_at_end = true
    · rw [if_pos he] at h
      injection h with h; subst h
      exact hs
    · rw [if_neg he] at h
      split at h
      · exact absurd h (by simp)
      · rename_i s2 hst
        exact ih s2 s1 h (scan_token_noEof _ _ _ hst hs)

/-- C6: every token sequence the scanner produces — for any input on
which scanning completes, the empty string included — ends in exactly one
end-of-stream token: the last element is an Eof token and no earlier
element has kind Eof. -/
theorem scan_eof_discipline (source : String) (ts : List Token) (err : Bool)
    (h : scanSource source = some (ts, err)) :
    ∃ pre ln, ts = pre ++ [Token.eof ln]
      ∧ ∀ t ∈ pre, t.tok_type ≠ TokenType.Eof := by
  unfold scanSource Scanner.scan_tokens at h
  cases hl : Scanner.scan_loop ((Scanner.new source).source_len + 1)
      (Scanner.new source) with
  | none => rw [hl] at h; exact absurd h (by simp)
  | some sf =>
    rw [hl] at h
    simp only [Option.map_some'] at h
    injection h with h
    injection h with h1 h2
    refine ⟨sf.tokens, sf.line, h1.symm, ?_⟩
    exact scan_loop_noEof _ _ _ hl (by intro t ht; exact absurd ht (List.not_mem_nil t))

/-- C6 witness: scanning the empty string completes with the single token
sequence `[Eof]`, which decomposes as required. -/
theorem scan_eof_discipline_witness :
    ∃ pre ln, [Token.eof 1] = pre ++ [Token.eof ln]
      ∧ ∀ t ∈ pre, t.tok_type ≠ TokenType.Eof :=
  scan_eof_discipline "" [Token.eof 1] false (by decide)

/-- C8: whenever the string-literal loop runs off the end of the input
(the literal is unterminated), `Scanner::string` sets the error flag and
pushes no token at all: the resulting token list is exactly the one it
started with. -/
theorem unterminated_string_sets_error (fuel : Nat) (s sb : Scanner)
    (hloop : Scanner.string_loop fuel s = some sb)
    (hend : sb.is_at_end = true) :
    Scanner.string s fuel = some sb.error
    ∧ sb.error.had_error = true
    ∧ sb.error.tokens = s.tokens := by
  refine ⟨?_, rfl, ?_⟩
  · unfold Scanner.string
    rw [hloop]
    simp only [Option.some_bind]
    rw [if_pos hend]
  · exact string_loop_tokens fuel s sb hloop

/-- C8 witness: `unterminated_string_sets_error` applied to the claim's
example `"\"unterminated"` (the scanner state just after the opening
quote was consumed). -/
theorem unterminated_string_witness :
    Scanner.string
        { source_chars := "\"unterminated".data, source_len := 13, start := 0,
          current := 1, line := 1, tokens := [], had_error := false } 14
      = some (Scanner.error
          { source_chars := "\"unterminated".data, source_len := 13, start := 0,
            current := 13, line := 1, tokens := [], had_error := false })
    ∧ (Scanner.error
          { source_chars := "\"unterminated".data, source_len := 13, start := 0,
            current := 13, line := 1, tokens := [], had_error := false }).had_error
        = true
    ∧ (Scanner.error
          { source_chars := "\"unterminated".data, source_len := 13, start := 0,
            current := 13, line := 1, tokens := [], had_error := false }).tokens
        = ({ source_chars := "\"unterminated".data, source_len := 13, start := 0,
             current := 1, line := 1, tokens := [], had_error := false } : Scanner).tokens :=
  unterminated_string_sets_error 14
    { source_chars := "\"unterminated".data, source_len := 13, start := 0,
      current := 1, line := 1, tokens := [], had_error := false }
    { source_chars := "\"unterminated".data, source_len := 13, start := 0,
      current := 13, line := 1, tokens := [], had_error := false }
    (by decide) (by decide)

/-- C2: what the code actually does on `"12.5"` and `"12."`:
`peek_next_is_digit` inspects the character two places past the dot, so
the dot of `"12.5"` (nothing two places past it) is *not* merged and the
scan yields `Number 12`, `Dot`, `Number 5` — not a single `Number 12.5`
token; `"12."` yields `Number 12` then `Dot` as the claim says. -/
theorem scan_12_5_splits_at_dot :
    scanSource "12.5"
      = some ([Token.number_literal 12 "12" 1, Token.new .Dot "." 1,
               Token.number_literal 5 "5" 1, Token.eof 1], false)
    ∧ scanSource "12."
      = some ([Token.number_literal 12 "12" 1, Token.new .Dot "." 1,
               Token.eof 1], false) := by
  exact ⟨by decide, by decide⟩

/-- C3 counterexample: scanning `"!==<>===="` does not produce the claimed
kind sequence `[BangEqual, Equal, Less, Greater, EqualEqual, Equal, Eof]`
(that sequence only covers 8 of the 9 input characters). -/
theorem munch_claimed_sequence_refuted :
    scanKinds "!==<>===="
      ≠ some [.BangEqual, .Equal, .Less, .Greater, .EqualEqual, .Equal, .Eof] := by
  decide

/-- C3 amended: scanning `"!==<>===="` yields exactly
`[BangEqual, Equal, Less, GreaterEqual, EqualEqual, Equal, Eof]`: the
two-character operators are preferred over adjacent single-character ones
left to right, so `>=` munches to `GreaterEqual`. -/
theorem munch_actual_sequence :
    scanKinds "!==<>===="
      = some [.BangEqual, .Equal, .Less, .GreaterEqual, .EqualEqual, .Equal, .Eof] := by
  decide

/-- C7: the code violates the never-panics claim on non-ASCII input:
`is_at_end` compares the char cursor with the UTF-8 *byte* length while
`advance` indexes the char array, so scanning `"¿"` (one char, two bytes)
re-enters `scan_token` after the input is exhausted and panics on an
out-of-bounds index (`none` here).  On ASCII input an unrecognized
character only sets the error flag and scanning continues, as `"@1"`
shows. -/
theorem scan_panics_on_non_ascii :
    scanSource "¿" = none
    ∧ scanSource "@1" = some ([Token.number_literal 1 "1" 1, Token.eof 1], true) := by
  exact ⟨by decide, by decide⟩

end Rlox
